import Mathlib

/-!
Verification of the typing-speed-trainer core (metrics engine, result
validator, leaderboard service) against its specification.

Modelling conventions:
* Python strings are modelled as `List Char` (indexed character sequences).
* Python floats are modelled as `ℚ`; `round(x, 2)` is modelled by `round2`
  (round-half-up on rationals; the claims under check never hinge on tie
  behaviour, since both the code model and the claim statements use the
  same rounding).
* The remote table store is modelled as a record of collaborator functions;
  a query that raises is an `Except.error ()`, a query that returns rows is
  `Except.ok rows`.
-/

/-- Round a rational to 2 decimal places (models Python `round(x, 2)`). -/
def round2 (x : ℚ) : ℚ := (⌊x * 100 + 1 / 2⌋ : ℚ) / 100

/-- Embedding of `TypingLogic.calculate_wpm` (src/src/logic.py lines 64-77). -/
def calculate_wpm (text_length : Nat) (time_seconds : ℚ) : ℚ :=
  if time_seconds ≤ 0 then 0
  else
    let words : ℚ := (text_length : ℚ) / 5
    let minutes : ℚ := time_seconds / 60
    round2 (words / minutes)

/-- The character-comparison loop of `calculate_accuracy`:
`for i in range(min(len(o), len(t))): if o[i] == t[i]: correct += 1`. -/
def countLoop (o t : List Char) : Nat :=
  (List.range (min o.length t.length)).foldl
    (fun acc i => if o[i]? = t[i]? then acc + 1 else acc) 0

/-- Embedding of `TypingLogic.calculate_accuracy` (src/src/logic.py lines
79-106), returning `(accuracy, correct_chars, total_chars)`. -/
def calculate_accuracy (original_text typed_text : List Char) : ℚ × Nat × Nat :=
  if original_text = [] then (100, 0, 0)
  else
    let correct_chars := countLoop original_text typed_text
    let total_chars := original_text.length
    if typed_text.length < original_text.length then
      (round2 (((correct_chars : ℚ) / (total_chars : ℚ)) * 100), correct_chars, total_chars)
    else
      let extra_chars := typed_text.length - original_text.length
      let total_chars_considered := original_text.length + extra_chars
      (round2 (((correct_chars : ℚ) / (total_chars_considered : ℚ)) * 100),
        correct_chars, total_chars)

/-- One entry of the character-by-character comparison; a missing character
(Python `""`) is `none`. -/
structure CompEntry where
  index : Nat
  original : Option Char
  typed : Option Char
  status : String
deriving DecidableEq, Repr

/-- Embedding of `TypingLogic.get_character_comparison` (src/src/logic.py
lines 108-137). -/
def get_character_comparison (original_text typed_text : List Char) : List CompEntry :=
  (List.range (max original_text.length typed_text.length)).map fun i =>
    let original_char := original_text[i]?
    let typed_char := typed_text[i]?
    let status :=
      if original_char = typed_char then "correct"
      else if typed_char = none then "missing"
      else if original_char = none then "extra"
      else "incorrect"
    ⟨i, original_char, typed_char, status⟩

/-- Embedding of `TypingLogic.validate_test_result` (src/src/logic.py lines
139-154), returning `(is_valid, error_message)`. -/
def validate_test_result (wpm accuracy : ℚ) : Bool × String :=
  if wpm < 0 then (false, "WPM cannot be negative")
  else if 300 < wpm then (false, "WPM seems unrealistically high (>300)")
  else if accuracy < 0 ∨ 100 < accuracy then
    (false, "Accuracy must be between 0 and 100")
  else (true, "")

/-- Embedding of `TypingLogic.get_performance_rating` (src/src/logic.py lines
156-175). -/
def get_performance_rating (wpm accuracy : ℚ) : String :=
  if accuracy < 80 then "Poor - Focus on accuracy first"
  else if accuracy < 90 then "Fair - Good progress, keep practicing"
  else if wpm < 20 then "Beginner - Great start!"
  else if wpm < 40 then "Intermediate - Nice progress!"
  else if wpm < 60 then "Advanced - Excellent typing!"
  else if wpm < 80 then "Expert - Outstanding speed!"
  else "Master - Incredible performance!"

/-- Claim-side count: the number of indices `i < min (len o) (len t)` at which
the two texts agree (exact, case-sensitive). -/
def matchCount_spec (o t : List Char) : Nat :=
  ((List.range (min o.length t.length)).filter
    (fun i => decide (o[i]? = t[i]?))).length

/-- Claim-side status table for a comparison entry: missing original gives
"extra", missing typed gives "missing", both present and equal gives
"correct", both present and unequal gives "incorrect". -/
def claimedStatus (oc tc : Option Char) : String :=
  match oc, tc with
  | none, _ => "extra"
  | some _, none => "missing"
  | some a, some b => if a = b then "correct" else "incorrect"

/-- A row of the `top_tests` view or of the raw `typing_tests` table, as
selected by `get_leaderboard` (`user_id, wpm, accuracy, test_date`). -/
structure TestRow where
  user_id : Int
  wpm : ℚ
  accuracy : ℚ
  test_date : Option String
deriving DecidableEq, Repr

/-- A row of the aggregated `leaderboard` view
(`user_id, max_wpm, best_accuracy`). -/
structure AggRow where
  user_id : Int
  max_wpm : ℚ
  best_accuracy : ℚ
deriving DecidableEq, Repr

/-- A record of the `users` table. -/
structure UserRec where
  user_id : Int
  name : String
  email : String
deriving DecidableEq, Repr

/-- The store collaborator as `get_leaderboard` consumes it: each sorted and
limited query takes the limit and either raises (`Except.error ()`) or
returns rows; `get_user_by_id` catches its own errors in the source
(src/src/db.py lines 58-65) and therefore never raises. -/
structure Store where
  top_tests : Nat → Except Unit (List TestRow)
  typing_tests_by_wpm : Nat → Except Unit (List TestRow)
  leaderboard_view : Nat → Except Unit (List AggRow)
  get_user_by_id : Int → Option UserRec

/-- One entry of the leaderboard result produced by `get_leaderboard`; tier-3
entries carry no `test_date`. -/
structure LBEntry where
  user_id : Int
  name : String
  wpm : ℚ
  accuracy : ℚ
  test_date : Option String
deriving DecidableEq, Repr

/-- Build a leaderboard entry from a test row, resolving the display name via
`get_user_by_id`; a missing user yields the name "Unknown". -/
def mkEntry (s : Store) (row : TestRow) : LBEntry :=
  { user_id := row.user_id
    name := match s.get_user_by_id row.user_id with
      | some u => u.name
      | none => "Unknown"
    wpm := row.wpm
    accuracy := row.accuracy
    test_date := row.test_date }

/-- Build a leaderboard entry from an aggregated per-user-best row. -/
def mkEntryAgg (s : Store) (row : AggRow) : LBEntry :=
  { user_id := row.user_id
    name := match s.get_user_by_id row.user_id with
      | some u => u.name
      | none => "Unknown"
    wpm := row.max_wpm
    accuracy := row.best_accuracy
    test_date := none }

/-- Tier 3 of `get_leaderboard` (src/src/db.py lines 193-216): query the
aggregated `leaderboard` view; an error or an empty result yields `[]`. -/
def tier3_result (s : Store) (limit : Nat) : List LBEntry :=
  match s.leaderboard_view limit with
  | Except.ok rows => if rows = [] then [] else rows.map (mkEntryAgg s)
  | Except.error _ => []

/-- Tier 2 of `get_leaderboard` (src/src/db.py lines 170-191): query the raw
`typing_tests` table sorted by wpm; an error or an empty result falls
through to tier 3. -/
def tier2_result (s : Store) (limit : Nat) : List LBEntry :=
  match s.typing_tests_by_wpm limit with
  | Except.ok rows => if rows = [] then tier3_result s limit else rows.map (mkEntry s)
  | Except.error _ => tier3_result s limit

/-- Embedding of `TypingDB.get_leaderboard` (src/src/db.py lines 141-216):
tier 1 queries the `top_tests` view; an error or an empty result falls
through to tier 2. -/
def get_leaderboard (s : Store) (limit : Nat) : List LBEntry :=
  match s.top_tests limit with
  | Except.ok rows => if rows = [] then tier2_result s limit else rows.map (mkEntry s)
  | Except.error _ => tier2_result s limit

/-- The scan loop of `get_user_rank`:
`for idx, entry in enumerate(leaderboard, 1): if entry["user_id"] == user_id: return idx`. -/
def rank_scan (uid : Int) : List LBEntry → Nat → Option Nat
  | [], _ => none
  | e :: rest, idx => if e.user_id = uid then some idx else rank_scan uid rest (idx + 1)

/-- Embedding of `TypingDB.get_user_rank` (src/src/db.py lines 218-228):
fetch the leaderboard with limit 1000 and linear-scan for the user. -/
def get_user_rank (s : Store) (uid : Int) : Option Nat :=
  rank_scan uid (get_leaderboard s 1000) 1

/-- Witness store for C2: every tier raises. -/
def storeAllFail : Store where
  top_tests := fun _ => Except.error ()
  typing_tests_by_wpm := fun _ => Except.error ()
  leaderboard_view := fun _ => Except.error ()
  get_user_by_id := fun _ => none

/-- Counterexample store for C3 (tier-3 view empty): tier 1 and tier 2 both
complete without error but return no rows. -/
def storeT3a : Store where
  top_tests := fun _ => Except.ok []
  typing_tests_by_wpm := fun _ => Except.ok []
  leaderboard_view := fun _ => Except.ok []
  get_user_by_id := fun _ => none

/-- Counterexample store for C3 (tier-3 view nonempty): identical to
`storeT3a` except for the tier-3 `leaderboard` view. -/
def storeT3b : Store where
  top_tests := fun _ => Except.ok []
  typing_tests_by_wpm := fun _ => Except.ok []
  leaderboard_view := fun _ => Except.ok [⟨7, 90, 95⟩]
  get_user_by_id := fun _ => none

/-- Witness store for the amended C3: tier 1 raises, tier 2 returns one row. -/
def storeT2 : Store where
  top_tests := fun _ => Except.error ()
  typing_tests_by_wpm := fun _ => Except.ok [⟨4, 55, 97, some "2025-01-01"⟩]
  leaderboard_view := fun _ => Except.error ()
  get_user_by_id := fun _ => none

/-- Witness store for C7: tier 1 returns a single row for user 1. -/
def storeC7 : Store where
  top_tests := fun _ => Except.ok [⟨1, 42, 99, none⟩]
  typing_tests_by_wpm := fun _ => Except.error ()
  leaderboard_view := fun _ => Except.error ()
  get_user_by_id := fun _ => some ⟨1, "Ada", "ada@example.com"⟩

/-- Witness store for C10: every query honours its limit (it returns a
prefix of a fixed one-row table of at most `limit` rows). -/
def storeC10 : Store where
  top_tests := fun n => Except.ok ([⟨7, 61, 93, none⟩].take n)
  typing_tests_by_wpm := fun n => Except.ok ([⟨7, 61, 93, none⟩].take n)
  leaderboard_view := fun n => Except.ok ([⟨7, 61, 93⟩].take n)
  get_user_by_id := fun _ => none

theorem foldl_count_eq {α : Type} (p : α → Prop) [DecidablePred p] :
    ∀ (l : List α) (acc : Nat),
      l.foldl (fun a x => if p x then a + 1 else a) acc
        = acc + (l.filter (fun x => decide (p x))).length := by
  intro l
  induction l with
  | nil => intro acc; simp
  | cons x xs ih =>
    intro acc
    by_cases hx : p x
    · simp [List.foldl_cons, List.filter_cons, hx, ih]
      omega
    · simp [List.foldl_cons, List.filter_cons, hx, ih]

theorem countLoop_eq_matchCount (o t : List Char) :
    countLoop o t = matchCount_spec o t := by
  unfold countLoop matchCount_spec
  simpa using foldl_count_eq (fun i => o[i]? = t[i]?) (List.range (min o.length t.length)) 0

theorem matchCount_le_min (o t : List Char) :
    matchCount_spec o t ≤ min o.length t.length := by
  unfold matchCount_spec
  calc ((List.range (min o.length t.length)).filter _).length
      ≤ (List.range (min o.length t.length)).length := List.length_filter_le _ _
    _ = min o.length t.length := List.length_range _

theorem round2_nonneg {x : ℚ} (hx : 0 ≤ x) : 0 ≤ round2 x := by
  unfold round2
  have h : (0 : ℤ) ≤ ⌊x * 100 + 1 / 2⌋ := by
    apply Int.floor_nonneg.mpr
    nlinarith
  positivity

theorem round2_le_hundred {x : ℚ} (hx : x ≤ 100) : round2 x ≤ 100 := by
  unfold round2
  have h : ⌊x * 100 + 1 / 2⌋ ≤ 10000 := by
    have : x * 100 + 1 / 2 < 10001 := by nlinarith
    exact Int.lt_add_one_iff.mp (Int.floor_lt.mpr (by exact_mod_cast this))
  rw [div_le_iff₀ (by norm_num)]
  calc ((⌊x * 100 + 1 / 2⌋ : ℤ) : ℚ) ≤ (10000 : ℚ) := by exact_mod_cast h
    _ = 100 * 100 := by norm_num

/-- Claim C1: `calculate_accuracy` returns `(100, 0, 0)` on an empty original; on a
nonempty original the correct count is the number of agreeing indices below
the shorter length, the accuracy denominator is the original length when the
typed text is shorter and the typed length otherwise, the accuracy is rounded
to two decimals, and the returned total is the original length. -/
theorem claim_C1 (o t : List Char) :
    calculate_accuracy o t =
      if o.length = 0 then (100, 0, 0)
      else
        (round2 ((matchCount_spec o t : ℚ) /
            (((if t.length < o.length then o.length else t.length) : Nat) : ℚ) * 100),
          matchCount_spec o t, o.length) := by
  by_cases ho : o = []
  · simp [calculate_accuracy, ho]
  · have hol : o.length ≠ 0 := by simpa using fun h => ho (List.length_eq_zero.mp h)
    rw [if_neg hol]
    unfold calculate_accuracy
    rw [if_neg ho, countLoop_eq_matchCount]
    by_cases hlt : t.length < o.length
    · simp only [if_pos hlt]
    · have hle : o.length ≤ t.length := le_of_not_lt hlt
      simp only [if_neg hlt]
      have hden : o.length + (t.length - o.length) = t.length := by omega
      rw [hden]

/-- Claim C4: `calculate_wpm` returns 0 when the elapsed time is nonpositive and
otherwise `(typedLength / 5) / (elapsedSeconds / 60)` rounded to two
decimals; in particular `calculate_wpm 0 60 = 0` and
`calculate_wpm 250 60 = 50`. -/
theorem claim_C4 :
    (∀ (n : Nat) (sec : ℚ), calculate_wpm n sec =
      if sec ≤ 0 then 0 else round2 (((n : ℚ) / 5) / (sec / 60))) ∧
    calculate_wpm 0 60 = 0 ∧ calculate_wpm 250 60 = 50 := by
  refine ⟨fun n sec => rfl, ?_, ?_⟩
  · norm_num [calculate_wpm, round2]
  · norm_num [calculate_wpm, round2]

/-- Claim C5: `get_performance_rating` classifies by the first matching rule in
order: accuracy below 80 is the Poor tier regardless of wpm; accuracy in
[80, 90) is the Fair tier regardless of wpm; accuracy at least 90 selects the
wpm band (below 20 Beginner, below 40 Intermediate, below 60 Advanced, below
80 Expert, at least 80 Master). -/
theorem claim_C5 (wpm accuracy : ℚ) :
    (accuracy < 80 →
      get_performance_rating wpm accuracy = "Poor - Focus on accuracy first") ∧
    (80 ≤ accuracy → accuracy < 90 →
      get_performance_rating wpm accuracy = "Fair - Good progress, keep practicing") ∧
    (90 ≤ accuracy →
      (wpm < 20 →
        get_performance_rating wpm accuracy = "Beginner - Great start!") ∧
      (20 ≤ wpm → wpm < 40 →
        get_performance_rating wpm accuracy = "Intermediate - Nice progress!") ∧
      (40 ≤ wpm → wpm < 60 →
        get_performance_rating wpm accuracy = "Advanced - Excellent typing!") ∧
      (60 ≤ wpm → wpm < 80 →
        get_performance_rating wpm accuracy = "Expert - Outstanding speed!") ∧
      (80 ≤ wpm →
        get_performance_rating wpm accuracy = "Master - Incredible performance!")) := by
  refine ⟨?_, ?_, ?_⟩
  · intro h
    rw [get_performance_rating, if_pos h]
  · intro h1 h2
    rw [get_performance_rating, if_neg (by linarith), if_pos h2]
  · intro h90
    refine ⟨?_, ?_, ?_, ?_, ?_⟩
    · intro hb
      rw [get_performance_rating, if_neg (by linarith), if_neg (by linarith), if_pos hb]
    · intro h1 h2
      rw [get_performance_rating, if_neg (by linarith), if_neg (by linarith),
        if_neg (by linarith), if_pos h2]
    · intro h1 h2
      rw [get_performance_rating, if_neg (by linarith), if_neg (by linarith),
        if_neg (by linarith), if_neg (by linarith), if_pos h2]
    · intro h1 h2
      rw [get_performance_rating, if_neg (by linarith), if_neg (by linarith),
        if_neg (by linarith), if_neg (by linarith), if_neg (by linarith), if_pos h2]
    · intro h1
      rw [get_performance_rating, if_neg (by linarith), if_neg (by linarith),
        if_neg (by linarith), if_neg (by linarith), if_neg (by linarith),
        if_neg (by linarith)]

/-- Witness for C5 at accuracy 70 (Poor regardless of wpm) and at
(wpm 65, accuracy 95) (Expert band). -/
theorem claim_C5_witness :
    get_performance_rating 10 70 = "Poor - Focus on accuracy first" ∧
    get_performance_rating 65 95 = "Expert - Outstanding speed!" :=
  ⟨(claim_C5 10 70).1 (by norm_num),
   (((claim_C5 65 95).2.2 (by norm_num)).2.2.2.1) (by norm_num) (by norm_num)⟩

/-- Claim C6: the character comparison has exactly `max (len o) (len t)` entries,
and the entry stored at index `i` carries index `i`, the two optional
characters at `i`, and the claimed status: "extra" when the original is
missing, "missing" when the typed is missing, "correct" when both are present
and equal, "incorrect" when both are present and unequal. -/
theorem claim_C6 (o t : List Char) :
    (get_character_comparison o t).length = max o.length t.length ∧
    ∀ (i : Nat) (e : CompEntry), (get_character_comparison o t)[i]? = some e →
      e.index = i ∧ e.original = o[i]? ∧ e.typed = t[i]? ∧
      e.status = claimedStatus o[i]? t[i]? := by
  constructor
  · simp [get_character_comparison]
  · intro i e he
    unfold get_character_comparison at he
    rw [List.getElem?_map] at he
    by_cases hi : i < max o.length t.length
    · rw [List.getElem?_range hi] at he
      simp only [Option.map_some'] at he
      cases he
      refine ⟨rfl, rfl, rfl, ?_⟩
      simp only
      cases ho : o[i]? with
      | none =>
        cases ht : t[i]? with
        | none =>
          exfalso
          have h1 : o.length ≤ i := by
            simpa using List.getElem?_eq_none_iff.mp ho
          have h2 : t.length ≤ i := by
            simpa using List.getElem?_eq_none_iff.mp ht
          omega
        | some b => simp [claimedStatus]
      | some a =>
        cases ht : t[i]? with
        | none => simp [claimedStatus]
        | some b =>
          by_cases hab : a = b
          · simp [claimedStatus, hab]
          · simp [claimedStatus, hab, Option.some_inj]
    · rw [List.getElem?_eq_none (by simpa using not_lt.mp hi)] at he
      simp at he

/-- Witness for C6 on the spec example `compareCharacters "ab" "ac"`: the
entry at index 1 is present and its status matches the claimed table. -/
theorem claim_C6_witness :
    ((get_character_comparison ['a', 'b'] ['a', 'c'])[1]? =
      some ⟨1, some 'b', some 'c', "incorrect"⟩) ∧
    (⟨1, some 'b', some 'c', "incorrect"⟩ : CompEntry).status =
      claimedStatus (['a', 'b'] : List Char)[1]? (['a', 'c'] : List Char)[1]? :=
  ⟨by decide,
   ((claim_C6 ['a', 'b'] ['a', 'c']).2 1 ⟨1, some 'b', some 'c', "incorrect"⟩
      (by decide)).2.2.2⟩

/-- Claim C8: the wpm computed by `calculate_wpm` is nonnegative for every
nonnegative typed length and every elapsed time, and the accuracy component
of `calculate_accuracy` always lies in [0, 100]. -/
theorem claim_C8 :
    (∀ (n : Nat) (sec : ℚ), 0 ≤ calculate_wpm n sec) ∧
    (∀ o t : List Char,
      0 ≤ (calculate_accuracy o t).1 ∧ (calculate_accuracy o t).1 ≤ 100) := by
  constructor
  · intro n sec
    unfold calculate_wpm
    by_cases h : sec ≤ 0
    · simp [h]
    · rw [if_neg h]
      have hsec : 0 < sec := lt_of_not_le h
      apply round2_nonneg
      positivity
  · intro o t
    by_cases ho : o = []
    · norm_num [calculate_accuracy, ho]
    · have hol : 0 < o.length := List.length_pos.mpr ho
      have hcnt : countLoop o t ≤ min o.length t.length := by
        rw [countLoop_eq_matchCount]; exact matchCount_le_min o t
      unfold calculate_accuracy
      rw [if_neg ho]
      by_cases hlt : t.length < o.length
      · rw [if_pos hlt]
        simp only
        have hle : (countLoop o t : ℚ) ≤ (o.length : ℚ) := by
          exact_mod_cast le_trans hcnt (min_le_left _ _)
        have hpos : (0 : ℚ) < (o.length : ℚ) := by exact_mod_cast hol
        constructor
        · apply round2_nonneg; positivity
        · apply round2_le_hundred
          have : (countLoop o t : ℚ) / (o.length : ℚ) ≤ 1 :=
            (div_le_one hpos).mpr hle
          nlinarith
      · rw [if_neg hlt]
        simp only
        have hot : o.length ≤ t.length := le_of_not_lt hlt
        have hden : o.length + (t.length - o.length) = t.length := by omega
        rw [hden]
        have hle : (countLoop o t : ℚ) ≤ (t.length : ℚ) := by
          exact_mod_cast le_trans hcnt (min_le_right _ _)
        have hpos : (0 : ℚ) < (t.length : ℚ) := by
          exact_mod_cast lt_of_lt_of_le hol hot
        constructor
        · apply round2_nonneg; positivity
        · apply round2_le_hundred
          have : (countLoop o t : ℚ) / (t.length : ℚ) ≤ 1 :=
            (div_le_one hpos).mpr hle
          nlinarith

/-- Claim C9: `validate_test_result` returns ok = false exactly when wpm is
negative, wpm exceeds 300, or accuracy is outside [0, 100]; a failure comes
with a nonempty reason, success with the empty reason. -/
theorem claim_C9 (w a : ℚ) :
    ((validate_test_result w a).1 = false ↔
      w < 0 ∨ 300 < w ∨ a < 0 ∨ 100 < a) ∧
    ((validate_test_result w a).1 = false → (validate_test_result w a).2 ≠ "") ∧
    ((validate_test_result w a).1 = true → (validate_test_result w a).2 = "") := by
  refine ⟨?_, ?_, ?_⟩
  · unfold validate_test_result
    split_ifs with h1 h2 h3 <;> simp <;>
      first | tauto | (push_neg at h1 h2 h3; tauto)
  · intro hf
    unfold validate_test_result at hf ⊢
    split_ifs at hf ⊢ <;> decide
  · intro ht
    unfold validate_test_result at ht ⊢
    split_ifs at ht ⊢
    rfl

/-- Witness for C9 at (wpm 400, accuracy 50): rejected with a nonempty
reason. -/
theorem claim_C9_witness :
    (validate_test_result 400 50).1 = false ∧
    (validate_test_result 400 50).2 ≠ "" :=
  ⟨(claim_C9 400 50).1.mpr (Or.inr (Or.inl (by norm_num))),
   (claim_C9 400 50).2.1
     ((claim_C9 400 50).1.mpr (Or.inr (Or.inl (by norm_num))))⟩

theorem rank_scan_some_iff (uid : Int) (l : List LBEntry) (base k : Nat) :
    rank_scan uid l base = some k ↔
      ∃ i e, l[i]? = some e ∧ e.user_id = uid ∧ k = base + i ∧
        ∀ j, j < i → ∀ e2, l[j]? = some e2 → e2.user_id ≠ uid := by
  induction l generalizing base with
  | nil => simp [rank_scan]
  | cons a rest ih =>
    rw [rank_scan]
    by_cases ha : a.user_id = uid
    · rw [if_pos ha]
      constructor
      · intro h
        refine ⟨0, a, by simp, ha, ?_, ?_⟩
        · injection h with h
          omega
        · intro j hj
          omega
      · rintro ⟨i, e, he, heu, hk, hfirst⟩
        cases i with
        | zero => simp [hk]
        | succ i' =>
          exact absurd ha (hfirst 0 (Nat.succ_pos i') a (by simp))
    · rw [if_neg ha, ih (base + 1)]
      constructor
      · rintro ⟨i, e, he, heu, hk, hfirst⟩
        refine ⟨i + 1, e, by simpa using he, heu, by omega, ?_⟩
        intro j hj e2 hj2
        cases j with
        | zero =>
          simp only [List.getElem?_cons_zero, Option.some.injEq] at hj2
          rw [← hj2]
          exact ha
        | succ j' =>
          exact hfirst j' (by omega) e2 (by simpa using hj2)
      · rintro ⟨i, e, he, heu, hk, hfirst⟩
        cases i with
        | zero =>
          simp only [List.getElem?_cons_zero, Option.some.injEq] at he
          exact absurd (he ▸ heu) ha
        | succ i' =>
          refine ⟨i', e, by simpa using he, heu, by omega, ?_⟩
          intro j hj e2 hje
          exact hfirst (j + 1) (by omega) e2 (by simpa using hje)

theorem rank_scan_none_iff (uid : Int) (l : List LBEntry) (base : Nat) :
    rank_scan uid l base = none ↔ ∀ e ∈ l, e.user_id ≠ uid := by
  induction l generalizing base with
  | nil => simp [rank_scan]
  | cons a rest ih =>
    rw [rank_scan]
    by_cases ha : a.user_id = uid
    · simp [ha]
    · simp [if_neg ha, ih (base + 1), ha]

theorem tier3_user_id_mem (s : Store) (n : Nat) (e : LBEntry)
    (he : e ∈ tier3_result s n) :
    ∃ rows, s.leaderboard_view n = Except.ok rows ∧
      ∃ r, r ∈ rows ∧ r.user_id = e.user_id := by
  unfold tier3_result at he
  split at he
  next rows heq =>
    by_cases hr : rows = []
    · rw [if_pos hr] at he
      simp at he
    · rw [if_neg hr] at he
      obtain ⟨r, hrm, hre⟩ := List.mem_map.mp he
      exact ⟨rows, heq, r, hrm, by subst hre; rfl⟩
  next u heq =>
    simp at he

theorem tier2_user_id_mem (s : Store) (n : Nat) (e : LBEntry)
    (he : e ∈ tier2_result s n) :
    (∃ rows, s.typing_tests_by_wpm n = Except.ok rows ∧
      ∃ r, r ∈ rows ∧ r.user_id = e.user_id) ∨
    (∃ rows, s.leaderboard_view n = Except.ok rows ∧
      ∃ r, r ∈ rows ∧ r.user_id = e.user_id) := by
  unfold tier2_result at he
  split at he
  next rows heq =>
    by_cases hr : rows = []
    · rw [if_pos hr] at he
      exact Or.inr (tier3_user_id_mem s n e he)
    · rw [if_neg hr] at he
      obtain ⟨r, hrm, hre⟩ := List.mem_map.mp he
      exact Or.inl ⟨rows, heq, r, hrm, by subst hre; rfl⟩
  next u heq =>
    exact Or.inr (tier3_user_id_mem s n e he)

theorem leaderboard_user_id_mem (s : Store) (n : Nat) (e : LBEntry)
    (he : e ∈ get_leaderboard s n) :
    (∃ rows, s.top_tests n = Except.ok rows ∧
      ∃ r, r ∈ rows ∧ r.user_id = e.user_id) ∨
    (∃ rows, s.typing_tests_by_wpm n = Except.ok rows ∧
      ∃ r, r ∈ rows ∧ r.user_id = e.user_id) ∨
    (∃ rows, s.leaderboard_view n = Except.ok rows ∧
      ∃ r, r ∈ rows ∧ r.user_id = e.user_id) := by
  unfold get_leaderboard at he
  split at he
  next rows heq =>
    by_cases hr : rows = []
    · rw [if_pos hr] at he
      exact Or.inr (tier2_user_id_mem s n e he)
    · rw [if_neg hr] at he
      obtain ⟨r, hrm, hre⟩ := List.mem_map.mp he
      exact Or.inl ⟨rows, heq, r, hrm, by subst hre; rfl⟩
  next u heq =>
    exact Or.inr (tier2_user_id_mem s n e he)

theorem tier3_length_le (s : Store) (n : Nat)
    (h3 : ∀ k rows, s.leaderboard_view k = Except.ok rows → rows.length ≤ k) :
    (tier3_result s n).length ≤ n := by
  unfold tier3_result
  split
  next rows heq =>
    by_cases hr : rows = []
    · simp [hr]
    · rw [if_neg hr]
      simpa using h3 n rows heq
  next u heq => simp

theorem tier2_length_le (s : Store) (n : Nat)
    (h2 : ∀ k rows, s.typing_tests_by_wpm k = Except.ok rows → rows.length ≤ k)
    (h3 : ∀ k rows, s.leaderboard_view k = Except.ok rows → rows.length ≤ k) :
    (tier2_result s n).length ≤ n := by
  unfold tier2_result
  split
  next rows heq =>
    by_cases hr : rows = []
    · rw [if_pos hr]
      exact tier3_length_le s n h3
    · rw [if_neg hr]
      simpa using h2 n rows heq
  next u heq => exact tier3_length_le s n h3

theorem get_leaderboard_length_le (s : Store) (n : Nat)
    (h1 : ∀ k rows, s.top_tests k = Except.ok rows → rows.length ≤ k)
    (h2 : ∀ k rows, s.typing_tests_by_wpm k = Except.ok rows → rows.length ≤ k)
    (h3 : ∀ k rows, s.leaderboard_view k = Except.ok rows → rows.length ≤ k) :
    (get_leaderboard s n).length ≤ n := by
  unfold get_leaderboard
  split
  next rows heq =>
    by_cases hr : rows = []
    · rw [if_pos hr]
      exact tier2_length_le s n h2 h3
    · rw [if_neg hr]
      simpa using h1 n rows heq
  next u heq => exact tier2_length_le s n h2 h3

/-- Claim C2: for every store collaborator behaviour and limit, `get_leaderboard`
is a total function (it never raises: every tier failure is modelled and
absorbed), and when all three sources fail or produce nothing the result is
the empty sequence. -/
theorem claim_C2 (s : Store) (limit : Nat)
    (h1 : s.top_tests limit = Except.error () ∨ s.top_tests limit = Except.ok [])
    (h2 : s.typing_tests_by_wpm limit = Except.error () ∨
      s.typing_tests_by_wpm limit = Except.ok [])
    (h3 : s.leaderboard_view limit = Except.error () ∨
      s.leaderboard_view limit = Except.ok []) :
    get_leaderboard s limit = [] := by
  have ht3 : tier3_result s limit = [] := by
    rcases h3 with h | h <;> simp [tier3_result, h]
  have ht2 : tier2_result s limit = [] := by
    rcases h2 with h | h <;> simp [tier2_result, h, ht3]
  rcases h1 with h | h <;> simp [get_leaderboard, h, ht2]

/-- Witness for C2: a store whose three sources all raise yields the empty
leaderboard. -/
theorem claim_C2_witness :
    storeAllFail.top_tests 3 = Except.error () ∧
    get_leaderboard storeAllFail 3 = [] :=
  ⟨rfl, claim_C2 storeAllFail 3 (Or.inl rfl) (Or.inl rfl) (Or.inl rfl)⟩

/-- Counterexample to C3 as stated: two stores agreeing on tiers 1 and 2 and
on the user lookup, where tier 1 produces nothing and tier 2 completes
without error (returning no rows), yield different leaderboards — so the
result does depend on the tier-3 view, which is therefore consulted even
though tier 2 did not error. -/
theorem claim_C3_counterexample :
    storeT3a.top_tests 5 = Except.ok [] ∧
    storeT3b.top_tests 5 = Except.ok [] ∧
    storeT3a.typing_tests_by_wpm 5 = Except.ok [] ∧
    storeT3b.typing_tests_by_wpm 5 = Except.ok [] ∧
    storeT3a.get_user_by_id = storeT3b.get_user_by_id ∧
    get_leaderboard storeT3a 5 = [] ∧
    get_leaderboard storeT3b 5 = [⟨7, "Unknown", 90, 95, none⟩] := by
  refine ⟨rfl, rfl, rfl, rfl, rfl, ?_, ?_⟩ <;> decide

/-- Claim C3, amended: `get_leaderboard` attempts its three sources strictly in
order with first-successful-non-empty-result-wins semantics; the tier-3
aggregate view is consulted when the tier-2 query errors or returns no rows,
and whenever tier 1 produces nothing and tier 2 completes without error with
at least one row, the result is exactly the tier-2 rows mapped to entries. -/
theorem claim_C3 (s : Store) (limit : Nat) :
    (∀ rows, s.top_tests limit = Except.ok rows → rows ≠ [] →
      get_leaderboard s limit = rows.map (mkEntry s)) ∧
    ((s.top_tests limit = Except.error () ∨ s.top_tests limit = Except.ok []) →
      ∀ rows, s.typing_tests_by_wpm limit = Except.ok rows → rows ≠ [] →
      get_leaderboard s limit = rows.map (mkEntry s)) ∧
    ((s.top_tests limit = Except.error () ∨ s.top_tests limit = Except.ok []) →
      (s.typing_tests_by_wpm limit = Except.error () ∨
        s.typing_tests_by_wpm limit = Except.ok []) →
      ∀ rows, s.leaderboard_view limit = Except.ok rows → rows ≠ [] →
      get_leaderboard s limit = rows.map (mkEntryAgg s)) := by
  refine ⟨?_, ?_, ?_⟩
  · intro rows hok hne
    simp [get_leaderboard, hok, hne]
  · intro h1 rows hok hne
    have hlb : get_leaderboard s limit = tier2_result s limit := by
      rcases h1 with h | h <;> simp [get_leaderboard, h]
    rw [hlb]
    simp [tier2_result, hok, hne]
  · intro h1 h2 rows hok hne
    have hlb : get_leaderboard s limit = tier2_result s limit := by
      rcases h1 with h | h <;> simp [get_leaderboard, h]
    have ht2 : tier2_result s limit = tier3_result s limit := by
      rcases h2 with h | h <;> simp [tier2_result, h]
    rw [hlb, ht2]
    simp [tier3_result, hok, hne]

/-- Witness for the amended C3: tier 1 raises, tier 2 returns one row, and
the leaderboard is that row mapped to an entry. -/
theorem claim_C3_witness :
    storeT2.top_tests 5 = Except.error () ∧
    storeT2.typing_tests_by_wpm 5 = Except.ok [⟨4, 55, 97, some "2025-01-01"⟩] ∧
    get_leaderboard storeT2 5 =
      [⟨4, 55, 97, some "2025-01-01"⟩].map (mkEntry storeT2) :=
  ⟨rfl, rfl,
   (claim_C3 storeT2 5).2.1 (Or.inl rfl) [⟨4, 55, 97, some "2025-01-01"⟩] rfl
     (by decide)⟩

/-- Claim C7: `get_user_rank` returns exactly the 1-based position of the first
entry of the limit-1000 leaderboard slice whose user id matches, `none` when
no entry matches, and in particular `none` whenever no row of any tier at
limit 1000 carries the user's id (a user with zero stored results). -/
theorem claim_C7 (s : Store) (uid : Int) :
    (∀ k : Nat, get_user_rank s uid = some k ↔
      ∃ i e, (get_leaderboard s 1000)[i]? = some e ∧ e.user_id = uid ∧
        k = 1 + i ∧
        ∀ j, j < i → ∀ e2, (get_leaderboard s 1000)[j]? = some e2 →
          e2.user_id ≠ uid) ∧
    ((∀ e ∈ get_leaderboard s 1000, e.user_id ≠ uid) →
      get_user_rank s uid = none) ∧
    ((∀ rows, s.top_tests 1000 = Except.ok rows → ∀ r ∈ rows, r.user_id ≠ uid) →
     (∀ rows, s.typing_tests_by_wpm 1000 = Except.ok rows →
        ∀ r ∈ rows, r.user_id ≠ uid) →
     (∀ rows, s.leaderboard_view 1000 = Except.ok rows →
        ∀ r ∈ rows, r.user_id ≠ uid) →
      get_user_rank s uid = none) := by
  refine ⟨?_, ?_, ?_⟩
  · intro k
    unfold get_user_rank
    rw [rank_scan_some_iff]
  · intro h
    unfold get_user_rank
    exact (rank_scan_none_iff uid _ 1).mpr h
  · intro ha hb hc
    unfold get_user_rank
    apply (rank_scan_none_iff uid _ 1).mpr
    intro e he heq
    rcases leaderboard_user_id_mem s 1000 e he with
      ⟨rows, hok, r, hrm, hru⟩ | ⟨rows, hok, r, hrm, hru⟩ | ⟨rows, hok, r, hrm, hru⟩
    · exact ha rows hok r hrm (by rw [hru, heq])
    · exact hb rows hok r hrm (by rw [hru, heq])
    · exact hc rows hok r hrm (by rw [hru, heq])

/-- Witness for C7: a store whose only leaderboard entry belongs to user 1
reports user 2 as absent. -/
theorem claim_C7_witness :
    (∀ e ∈ get_leaderboard storeC7 1000, e.user_id ≠ 2) ∧
    get_user_rank storeC7 2 = none :=
  ⟨by decide, (claim_C7 storeC7 2).2.1 (by decide)⟩

/-- Claim C10: whenever the store honours the query limits (each successful query
returns at most `limit` rows), any rank returned by `get_user_rank` lies
between 1 and 1000, because the scanned leaderboard slice is fetched with the
fixed limit 1000. -/
theorem claim_C10 (s : Store)
    (h1 : ∀ k rows, s.top_tests k = Except.ok rows → rows.length ≤ k)
    (h2 : ∀ k rows, s.typing_tests_by_wpm k = Except.ok rows → rows.length ≤ k)
    (h3 : ∀ k rows, s.leaderboard_view k = Except.ok rows → rows.length ≤ k)
    (uid : Int) (r : Nat) (hr : get_user_rank s uid = some r) :
    1 ≤ r ∧ r ≤ 1000 := by
  unfold get_user_rank at hr
  rw [rank_scan_some_iff] at hr
  obtain ⟨i, e, he, -, hk, -⟩ := hr
  have hi : i < (get_leaderboard s 1000).length := by
    by_contra hcon
    rw [List.getElem?_eq_none (by omega)] at he
    exact Option.noConfusion he
  have hlen : (get_leaderboard s 1000).length ≤ 1000 :=
    get_leaderboard_length_le s 1000 h1 h2 h3
  omega

/-- Witness for C10: a limit-honouring store where user 7 has rank 1. -/
theorem claim_C10_witness :
    get_user_rank storeC10 7 = some 1 ∧ (1 ≤ 1 ∧ 1 ≤ 1000) :=
  ⟨by decide,
   claim_C10 storeC10
     (by
       intro k rows h
       injection h with h
       rw [← h]
       simp)
     (by
       intro k rows h
       injection h with h
       rw [← h]
       simp)
     (by
       intro k rows h
       injection h with h
       rw [← h]
       simp)
     7 1 (by decide)⟩
